import Mathlib

/-!
# STAR randomness server — epoch scheduler verification

A shallow embedding of `src/state.rs` of the `star-randsrv` service:
the OPRF server state cell (`OPRFServer`), its construction
(`OPRFServer::new`), and the epoch scheduler (`epoch_loop`), which
derives the starting epoch from a base time, performs startup catch-up
puncturing, and then repeatedly publishes the next rotation timestamp,
punctures the current epoch and advances (or rotates the key).

Time is modelled as natural numbers counting milliseconds.  The PPOPRF
primitive is modelled by its observable interface: a key identifier
(fresh per key generation) together with the list of still-active epoch
tags; `puncture` removes a tag and fails when the tag is not active.
Each write-lock critical section of the Rust code is one atomic step
function here; the observable states are exactly the states between
critical sections.
-/

namespace StarRandsrv

/-- Milliseconds per second; timestamps are in milliseconds. -/
def msPerSec : Nat := 1000

/-- `u32::MAX`, the bound in the scheduler's overflow assertion. -/
def u32Max : Nat := 4294967295

/-- The service configuration (the fields of `Config` that
`src/state.rs` reads).  `first_epoch` and `last_epoch` are `u8` in the
source, so `≤ 255` appears as a hypothesis where needed;
`epoch_base_time` is an optional millisecond timestamp. -/
structure Config where
  first_epoch : Nat
  last_epoch : Nat
  epoch_seconds : Nat
  epoch_base_time : Option Nat
deriving DecidableEq, Repr

/-- `std::time::Duration::from_secs(config.epoch_seconds)`,
in milliseconds. -/
def Config.interval (c : Config) : Nat := c.epoch_seconds * msPerSec

/-- The number of epochs in the configured range, `epochs.len()` for
`first_epoch..=last_epoch` (when `first_epoch ≤ last_epoch`). -/
def Config.epochsLen (c : Config) : Nat := c.last_epoch + 1 - c.first_epoch

/-- The ascending list `[a, a+1, …, a+n-1]`, the order in which Rust's
ranges `first_epoch..=last_epoch` and `first_epoch..current` iterate. -/
def rangeList : Nat → Nat → List Nat
  | _, 0 => []
  | a, n + 1 => a :: rangeList (a + 1) n

/-- `(config.first_epoch..=config.last_epoch).collect::<Vec<u8>>()`. -/
def Config.epochsList (c : Config) : List Nat :=
  rangeList c.first_epoch c.epochsLen

/-- `config.epoch_base_time.unwrap_or(start_time)`. -/
def Config.baseTime (c : Config) (startTime : Nat) : Nat :=
  c.epoch_base_time.getD startTime

/-- The PPOPRF primitive, by its observable interface: `keyId`
identifies the key generation (a fresh id per `ppoprf::Server::new`)
and `activeEpochs` is the list of epoch tags not yet punctured. -/
structure PpoprfServer where
  keyId : Nat
  activeEpochs : List Nat
deriving DecidableEq, Repr

/-- `ppoprf::Server::new(epochs)`: a fresh key with the given tags
active. -/
def PpoprfServer.new (epochs : List Nat) (keyId : Nat) : PpoprfServer :=
  { keyId := keyId, activeEpochs := epochs }

/-- `server.puncture(epoch)`: removes the tag from the active set,
failing (`none`, a fatal `expect` in the source) when it is absent. -/
def PpoprfServer.puncture (s : PpoprfServer) (epoch : Nat) :
    Option PpoprfServer :=
  if epoch ∈ s.activeEpochs then
    some { s with activeEpochs := s.activeEpochs.erase epoch }
  else none

/-- The state cell `OPRFServer` of `src/state.rs`: the PPOPRF instance,
the currently-valid epoch, and the optional published next-rotation
timestamp (a millisecond timestamp standing for the RFC 3339 string). -/
structure OPRFServer where
  server : PpoprfServer
  epoch : Nat
  next_epoch_time : Option Nat
deriving DecidableEq, Repr

/-- `OPRFServer::new(config)` (src/state.rs lines 26–37): collect the
configured range, take `epochs[0]` as the starting epoch (a panic,
`none`, when the range is empty) and start a fresh PPOPRF instance with
`next_epoch_time = None`. -/
def OPRFServer.new (config : Config) (keyId : Nat) : Option OPRFServer :=
  let epochs := config.epochsList
  match epochs with
  | [] => none
  | e :: _ =>
    some { server := PpoprfServer.new epochs keyId
           epoch := e
           next_epoch_time := none }

/-- `elapsed_epochs` (src/state.rs line 71): whole epochs between the
base time and the start time.  The source computes the floor of an
`f64` ratio of durations; on millisecond timestamps this is natural
division by the interval. -/
def elapsedEpochs (cfg : Config) (startTime baseTime : Nat) : Nat :=
  (startTime - baseTime) / cfg.interval

/-- `offset` (src/state.rs line 75): position within the epoch range. -/
def startOffset (cfg : Config) (elapsed : Nat) : Nat :=
  elapsed % cfg.epochsLen

/-- `current_epoch = epochs.start() + offset as u8`
(src/state.rs line 76): the `as u8` cast and the 8-bit addition are
modelled by reduction modulo 256. -/
def startEpoch (cfg : Config) (elapsed : Nat) : Nat :=
  (cfg.first_epoch + startOffset cfg elapsed % 256) % 256

/-- Puncture each tag of a list in order, propagating failure (each
`expect` in the source loop is fatal). -/
def punctureList : PpoprfServer → List Nat → Option PpoprfServer
  | s, [] => some s
  | s, e :: rest =>
    match s.puncture e with
    | none => none
    | some s2 => punctureList s2 rest

/-- Startup catch-up (src/state.rs lines 80–93): when the computed
current epoch differs from `first_epoch`, puncture every tag in
`first_epoch..current` in ascending order and set the epoch, all in one
write-lock critical section; otherwise leave the cell untouched. -/
def catchUp (cfg : Config) (s : OPRFServer) (current : Nat) :
    Option OPRFServer :=
  if current ≠ cfg.first_epoch then
    match punctureList s.server
        (rangeList cfg.first_epoch (current - cfg.first_epoch)) with
    | none => none
    | some srv => some { s with server := srv, epoch := current }
  else some s

/-- The assertion `elapsed_epochs < u32::MAX as u64`
(src/state.rs line 99). -/
def elapsedAssertOk (elapsed : Nat) : Bool :=
  elapsed < u32Max

/-- `next_rotation = base_time + interval * (elapsed_epochs + 1) as u32`
(src/state.rs lines 100–101); the `as u32` truncation is reduction
modulo `2^32`. -/
def nextRotationInit (cfg : Config) (baseTime elapsed : Nat) : Nat :=
  baseTime + cfg.interval * ((elapsed + 1) % 2 ^ 32)

/-- `old_epoch.checked_add(1)` on a `u8` value. -/
def checkedAddOne (e : Nat) : Option Nat :=
  if e + 1 ≤ 255 then some (e + 1) else none

/-- The rotation-tick critical section (src/state.rs lines 133–155):
puncture the current epoch; if its checked successor exists and lies in
the configured range, advance to it keeping the same PPOPRF instance;
otherwise replace the whole cell by `OPRFServer::new(config)` with a
fresh key.  `none` is a fatal panic (puncture or re-init failure). -/
def tick (cfg : Config) (s : OPRFServer) (newKeyId : Nat) :
    Option OPRFServer :=
  match s.server.puncture s.epoch with
  | none => none
  | some srv =>
    match checkedAddOne s.epoch with
    | some e =>
      if cfg.first_epoch ≤ e ∧ e ≤ cfg.last_epoch then
        some { s with server := srv, epoch := e }
      else OPRFServer.new cfg newKeyId
    | none => OPRFServer.new cfg newKeyId

/-- The scheduler's whole state: the shared cell plus the local
`next_rotation` variable; `nextKeyId` supplies the fresh key identifier
of the next full rotation. -/
structure SchedState where
  cell : OPRFServer
  next_rotation : Nat
  nextKeyId : Nat
deriving DecidableEq, Repr

/-- `replace_millisecond(0)` before formatting: truncation to whole
seconds. -/
def truncToSec (t : Nat) : Nat := t / msPerSec * msPerSec

/-- The publication critical section at the top of the loop
(src/state.rs lines 103–120): write the truncated `next_rotation`
timestamp into the cell. -/
def publishStep (st : SchedState) : SchedState :=
  { st with
    cell := { st.cell with
              next_epoch_time := some (truncToSec st.next_rotation) } }

/-- The rest of one loop iteration: after the sleep, advance
`next_rotation` by one interval (src/state.rs line 128) and run the
rotation-tick critical section. -/
def tickStep (cfg : Config) (st : SchedState) : Option SchedState :=
  match tick cfg st.cell st.nextKeyId with
  | none => none
  | some c =>
    some { cell := c
           next_rotation := st.next_rotation + cfg.interval
           nextKeyId := st.nextKeyId + 1 }

/-- One full iteration of the scheduler loop: publish, (sleep,) tick. -/
def loopIter (cfg : Config) (st : SchedState) : Option SchedState :=
  tickStep cfg (publishStep st)

/-- The prologue of `epoch_loop` (src/state.rs lines 44–101) applied to
the freshly constructed cell: base-time resolution, the
`start_time ≥ base_time` assertion, the schedule derivation, startup
catch-up, the overflow assertion and the initial `next_rotation`.
`none` is a startup abort. -/
def startup (cfg : Config) (startTime : Nat) : Option SchedState :=
  match OPRFServer.new cfg 0 with
  | none => none
  | some s0 =>
    if startTime < cfg.baseTime startTime then none
    else
      match catchUp cfg s0
          (startEpoch cfg
            (elapsedEpochs cfg startTime (cfg.baseTime startTime))) with
      | none => none
      | some s1 =>
        if elapsedAssertOk
            (elapsedEpochs cfg startTime (cfg.baseTime startTime)) then
          some { cell := s1
                 next_rotation := nextRotationInit cfg
                   (cfg.baseTime startTime)
                   (elapsedEpochs cfg startTime (cfg.baseTime startTime))
                 nextKeyId := 1 }
        else none

/-- `n` iterations of the scheduler loop after startup. -/
def runIters (cfg : Config) (st : SchedState) : Nat → Option SchedState
  | 0 => some st
  | n + 1 =>
    match runIters cfg st n with
    | none => none
    | some s => loopIter cfg s

/-- The cell states a reader can observe: the freshly constructed cell,
and — once the scheduler runs — after startup catch-up, after each
publication, and after each rotation tick. -/
def reachableCell (cfg : Config) (startTime : Nat) (c : OPRFServer) :
    Prop :=
  OPRFServer.new cfg 0 = some c ∨
  ∃ st s n, startup cfg startTime = some st ∧
    runIters cfg st n = some s ∧
    (c = s.cell ∨ c = (publishStep s).cell)

/-- The inductive state invariant: the epoch is in range and the active
set is exactly `[epoch, last_epoch]`. -/
def cellInv (cfg : Config) (c : OPRFServer) : Prop :=
  cfg.first_epoch ≤ c.epoch ∧ c.epoch ≤ cfg.last_epoch ∧
  c.server.activeEpochs = rangeList c.epoch (cfg.last_epoch + 1 - c.epoch)

instance (cfg : Config) (c : OPRFServer) : Decidable (cellInv cfg c) := by
  unfold cellInv
  infer_instance

/-! ## Basic lemmas about the embedded operations -/

theorem mem_rangeList : ∀ (n a e : Nat),
    e ∈ rangeList a n ↔ a ≤ e ∧ e < a + n := by
  intro n
  induction n with
  | zero =>
    intro a e
    simp only [rangeList, List.not_mem_nil, false_iff]
    omega
  | succ n ih =>
    intro a e
    simp only [rangeList, List.mem_cons, ih]
    omega

theorem rangeList_succ_eq (a n : Nat) :
    rangeList a (n + 1) = a :: rangeList (a + 1) n := rfl

/-- Puncturing an ascending prefix of an ascending active range leaves
the remaining ascending range active. -/
theorem punctureList_rangeList (key : Nat) :
    ∀ (n k a : Nat),
      punctureList (PpoprfServer.mk key (rangeList a (n + k)))
        (rangeList a n) = some (PpoprfServer.mk key (rangeList (a + n) k)) := by
  intro n
  induction n with
  | zero =>
    intro k a
    simp [rangeList, punctureList]
  | succ n ih =>
    intro k a
    have hsplit : n + 1 + k = (n + k) + 1 := by omega
    rw [hsplit, rangeList_succ_eq a (n + k), rangeList_succ_eq a n]
    show punctureList _ (a :: rangeList (a + 1) n) = _
    have hp : (PpoprfServer.mk key (a :: rangeList (a + 1) (n + k))).puncture a
        = some (PpoprfServer.mk key (rangeList (a + 1) (n + k))) := by
      unfold PpoprfServer.puncture
      rw [if_pos (List.mem_cons_self a _)]
      simp [List.erase_cons_head]
    simp only [punctureList, hp]
    have harg : a + 1 + n = a + (n + 1) := by omega
    rw [ih k (a + 1), harg]

/-- Shape of `OPRFServer::new` when the configured range is nonempty. -/
theorem OPRFServer.new_eq (cfg : Config)
    (h1 : cfg.first_epoch ≤ cfg.last_epoch) :
    OPRFServer.new cfg = fun keyId =>
      some { server := PpoprfServer.new cfg.epochsList keyId
             epoch := cfg.first_epoch
             next_epoch_time := none } := by
  funext keyId
  have hlen : cfg.epochsLen = (cfg.last_epoch - cfg.first_epoch) + 1 := by
    unfold Config.epochsLen
    omega
  have hlist : cfg.epochsList = cfg.first_epoch ::
      rangeList (cfg.first_epoch + 1) (cfg.last_epoch - cfg.first_epoch) := by
    unfold Config.epochsList
    rw [hlen, rangeList_succ_eq]
  unfold OPRFServer.new
  rw [hlist]

/-- Bounds on the startup schedule derivation: the modulo offset stays
within the range, the `as u8` truncation is the identity, and the
computed starting epoch lies in `[first_epoch, last_epoch]`. -/
theorem startEpoch_spec (cfg : Config) (elapsed : Nat)
    (h1 : cfg.first_epoch ≤ cfg.last_epoch) (h2 : cfg.last_epoch ≤ 255) :
    startOffset cfg elapsed ≤ cfg.last_epoch - cfg.first_epoch ∧
    startOffset cfg elapsed % 256 = startOffset cfg elapsed ∧
    startEpoch cfg elapsed = cfg.first_epoch + startOffset cfg elapsed ∧
    cfg.first_epoch ≤ startEpoch cfg elapsed ∧
    startEpoch cfg elapsed ≤ cfg.last_epoch ∧
    cfg.first_epoch + startOffset cfg elapsed < 256 := by
  have hlenpos : 0 < cfg.epochsLen := by
    unfold Config.epochsLen
    omega
  have hoff : startOffset cfg elapsed < cfg.epochsLen := by
    unfold startOffset
    exact Nat.mod_lt _ hlenpos
  have hoffle : startOffset cfg elapsed ≤ cfg.last_epoch - cfg.first_epoch := by
    unfold Config.epochsLen at hoff
    omega
  have hmod : startOffset cfg elapsed % 256 = startOffset cfg elapsed :=
    Nat.mod_eq_of_lt (by omega)
  have heq : startEpoch cfg elapsed
      = cfg.first_epoch + startOffset cfg elapsed := by
    unfold startEpoch
    rw [hmod]
    exact Nat.mod_eq_of_lt (by omega)
  exact ⟨hoffle, hmod, heq, by omega, by omega, by omega⟩

/-- Behaviour of startup catch-up on a cell whose full configured range
is active: for `current = first_epoch` the cell is returned unchanged;
otherwise exactly the tags `[first_epoch, current)` are punctured and
the epoch becomes `current`. -/
theorem catchUp_spec (cfg : Config) (s : OPRFServer) (current : Nat)
    (h1 : cfg.first_epoch ≤ cfg.last_epoch)
    (hc1 : cfg.first_epoch ≤ current) (hc2 : current ≤ cfg.last_epoch)
    (hact : s.server.activeEpochs = cfg.epochsList) :
    catchUp cfg s current =
      if current = cfg.first_epoch then some s
      else some { s with
        server := PpoprfServer.mk s.server.keyId
          (rangeList current (cfg.last_epoch + 1 - current))
        epoch := current } := by
  by_cases hcur : current = cfg.first_epoch
  · rw [if_pos hcur]
    unfold catchUp
    simp [hcur]
  · rw [if_neg hcur]
    have hkey : s.server = PpoprfServer.mk s.server.keyId
        (rangeList cfg.first_epoch
          ((current - cfg.first_epoch) + (cfg.last_epoch + 1 - current))) := by
      have hsplit : cfg.epochsLen
          = (current - cfg.first_epoch) + (cfg.last_epoch + 1 - current) := by
        unfold Config.epochsLen
        omega
      have : s.server.activeEpochs = rangeList cfg.first_epoch
          ((current - cfg.first_epoch) + (cfg.last_epoch + 1 - current)) := by
        rw [hact]
        unfold Config.epochsList
        rw [hsplit]
      rw [← this]
    unfold catchUp
    rw [if_pos hcur, hkey, punctureList_rangeList]
    have harg : cfg.first_epoch + (current - cfg.first_epoch) = current := by
      omega
    rw [harg]

/-- Behaviour of the rotation-tick critical section on any cell
satisfying the state invariant: below `last_epoch` the epoch advances
by one on the punctured instance; at `last_epoch` (including the `u8`
overflow case `epoch = 255`) the whole cell is replaced by a fresh
instance at `first_epoch`. -/
theorem tick_spec (cfg : Config) (c : OPRFServer) (k : Nat)
    (h1 : cfg.first_epoch ≤ cfg.last_epoch) (h2 : cfg.last_epoch ≤ 255)
    (hinv : cellInv cfg c) :
    tick cfg c k =
      some (if c.epoch < cfg.last_epoch then
        { server := PpoprfServer.mk c.server.keyId
            (rangeList (c.epoch + 1) (cfg.last_epoch - c.epoch))
          epoch := c.epoch + 1
          next_epoch_time := c.next_epoch_time }
      else
        { server := PpoprfServer.new cfg.epochsList k
          epoch := cfg.first_epoch
          next_epoch_time := none }) := by
  obtain ⟨hlo, hhi, hact⟩ := hinv
  have hact2 : c.server.activeEpochs
      = c.epoch :: rangeList (c.epoch + 1) (cfg.last_epoch - c.epoch) := by
    rw [hact]
    have : cfg.last_epoch + 1 - c.epoch = (cfg.last_epoch - c.epoch) + 1 := by
      omega
    rw [this, rangeList_succ_eq]
  have hpunct : c.server.puncture c.epoch
      = some (PpoprfServer.mk c.server.keyId
          (rangeList (c.epoch + 1) (cfg.last_epoch - c.epoch))) := by
    unfold PpoprfServer.puncture
    rw [hact2, if_pos (List.mem_cons_self _ _), List.erase_cons_head]
  have hnew := congrFun (OPRFServer.new_eq cfg h1) k
  unfold tick
  rw [hpunct]
  by_cases hlt : c.epoch < cfg.last_epoch
  · rw [if_pos hlt]
    have hadd : checkedAddOne c.epoch = some (c.epoch + 1) := by
      unfold checkedAddOne
      rw [if_pos (by omega)]
    rw [hadd]
    simp only [Option.some.injEq]
    rw [if_pos ⟨by omega, by omega⟩]
  · rw [if_neg hlt]
    have hep : c.epoch = cfg.last_epoch := by omega
    by_cases h255 : c.epoch + 1 ≤ 255
    · have hadd : checkedAddOne c.epoch = some (c.epoch + 1) := by
        unfold checkedAddOne
        rw [if_pos h255]
      rw [hadd]
      simp only
      rw [if_neg (by omega)]
      exact hnew
    · have hadd : checkedAddOne c.epoch = none := by
        unfold checkedAddOne
        rw [if_neg h255]
      rw [hadd]
      exact hnew

/-- Inversion of a successful startup: the construction succeeded, the
base-time and overflow assertions passed, the cell is the catch-up
result at the derived starting epoch, and `next_rotation` is the first
boundary after the start time. -/
theorem startup_elim (cfg : Config) (t0 : Nat) (st : SchedState)
    (hs : startup cfg t0 = some st) :
    ∃ s0, OPRFServer.new cfg 0 = some s0 ∧
      cfg.baseTime t0 ≤ t0 ∧
      elapsedAssertOk (elapsedEpochs cfg t0 (cfg.baseTime t0)) = true ∧
      catchUp cfg s0
        (startEpoch cfg (elapsedEpochs cfg t0 (cfg.baseTime t0)))
        = some st.cell ∧
      st.next_rotation
        = nextRotationInit cfg (cfg.baseTime t0)
            (elapsedEpochs cfg t0 (cfg.baseTime t0)) ∧
      st.nextKeyId = 1 := by
  unfold startup at hs
  split at hs
  next => simp at hs
  next s0 heq0 =>
    split at hs
    next => simp at hs
    next hb =>
      split at hs
      next => simp at hs
      next s1 heq1 =>
        split at hs
        next ha =>
          have hst := (Option.some.injEq _ _).mp hs
          subst hst
          exact ⟨s0, heq0, by omega, by simpa using ha, heq1, rfl, rfl⟩
        next => simp at hs

/-- A successful startup leaves the cell satisfying the state
invariant. -/
theorem startup_cellInv (cfg : Config) (t0 : Nat) (st : SchedState)
    (h1 : cfg.first_epoch ≤ cfg.last_epoch) (h2 : cfg.last_epoch ≤ 255)
    (hs : startup cfg t0 = some st) : cellInv cfg st.cell := by
  obtain ⟨s0, heq0, hb, ha, hcatch, hnr, hk⟩ := startup_elim cfg t0 st hs
  have hnew := congrFun (OPRFServer.new_eq cfg h1) 0
  rw [hnew] at heq0
  have hs0 : ({ server := PpoprfServer.new cfg.epochsList 0
                epoch := cfg.first_epoch
                next_epoch_time := none } : OPRFServer) = s0 :=
    (Option.some.injEq _ _).mp heq0
  obtain ⟨-, -, hce, hcl, hcu, -⟩ := startEpoch_spec cfg
    (elapsedEpochs cfg t0 (cfg.baseTime t0)) h1 h2
  rw [catchUp_spec cfg s0 _ h1 hcl hcu (by rw [← hs0]; rfl)] at hcatch
  by_cases hcur : startEpoch cfg (elapsedEpochs cfg t0 (cfg.baseTime t0))
      = cfg.first_epoch
  · rw [if_pos hcur] at hcatch
    have : s0 = st.cell := (Option.some.injEq _ _).mp hcatch
    rw [← this, ← hs0]
    refine ⟨le_refl _, h1, rfl⟩
  · rw [if_neg hcur] at hcatch
    have hc := (Option.some.injEq _ _).mp hcatch
    rw [← hc]
    exact ⟨hcl, hcu, rfl⟩

/-- One full loop iteration from any invariant state succeeds,
preserves the invariant, and advances `next_rotation` by exactly one
interval. -/
theorem loopIter_spec (cfg : Config) (s : SchedState)
    (h1 : cfg.first_epoch ≤ cfg.last_epoch) (h2 : cfg.last_epoch ≤ 255)
    (hinv : cellInv cfg s.cell) :
    ∃ s2, loopIter cfg s = some s2 ∧ cellInv cfg s2.cell ∧
      s2.next_rotation = s.next_rotation + cfg.interval ∧
      s2.nextKeyId = s.nextKeyId + 1 := by
  have hpub : cellInv cfg (publishStep s).cell := hinv
  have htick := tick_spec cfg (publishStep s).cell (publishStep s).nextKeyId
    h1 h2 hpub
  unfold loopIter tickStep
  rw [htick]
  refine ⟨_, rfl, ?_, rfl, rfl⟩
  dsimp only
  by_cases hlt : (publishStep s).cell.epoch < cfg.last_epoch
  · rw [if_pos hlt]
    obtain ⟨hlo, hhi, -⟩ := hpub
    refine ⟨?_, ?_, ?_⟩ <;> dsimp only
    · omega
    · omega
    · have h : cfg.last_epoch - (publishStep s).cell.epoch
          = cfg.last_epoch + 1 - ((publishStep s).cell.epoch + 1) := by omega
      rw [h]
  · rw [if_neg hlt]
    exact ⟨le_refl _, h1, rfl⟩

/-- Every state the loop reaches from an invariant start state keeps
the invariant, and its `next_rotation` sits exactly `n` intervals past
the initial one. -/
theorem runIters_spec (cfg : Config) (st0 : SchedState)
    (h1 : cfg.first_epoch ≤ cfg.last_epoch) (h2 : cfg.last_epoch ≤ 255)
    (hinv : cellInv cfg st0.cell) :
    ∀ n s, runIters cfg st0 n = some s →
      cellInv cfg s.cell ∧
      s.next_rotation = st0.next_rotation + n * cfg.interval := by
  intro n
  induction n with
  | zero =>
    intro s hr
    unfold runIters at hr
    have : st0 = s := (Option.some.injEq _ _).mp hr
    rw [← this]
    exact ⟨hinv, by omega⟩
  | succ n ih =>
    intro s hr
    unfold runIters at hr
    split at hr
    next => simp at hr
    next s1 heq1 =>
      obtain ⟨hinv1, hnr1⟩ := ih s1 heq1
      obtain ⟨s2, hstep, hinv2, hnr2, -⟩ := loopIter_spec cfg s1 h1 h2 hinv1
      rw [hstep] at hr
      have : s2 = s := (Option.some.injEq _ _).mp hr
      rw [← this]
      refine ⟨hinv2, ?_⟩
      rw [hnr2, hnr1]
      ring

/-! ## Claim theorems -/

/-- C1: for every configuration with `first_epoch ≤ last_epoch`, in
every cell state reachable by the scheduler's steps (initial
construction, startup catch-up, publications and rotation ticks),
`current_epoch` lies in `[first_epoch, last_epoch]`, every tag in
`[first_epoch, current_epoch)` is punctured in the current key
generation, and `current_epoch` itself is still active. -/
theorem C1_reachable_epoch_invariant (cfg : Config) (t0 : Nat)
    (c : OPRFServer)
    (h1 : cfg.first_epoch ≤ cfg.last_epoch) (h2 : cfg.last_epoch ≤ 255)
    (hreach : reachableCell cfg t0 c) :
    cfg.first_epoch ≤ c.epoch ∧ c.epoch ≤ cfg.last_epoch ∧
    c.epoch ∈ c.server.activeEpochs ∧
    ∀ e, cfg.first_epoch ≤ e → e < c.epoch →
      e ∉ c.server.activeEpochs := by
  have hinv : cellInv cfg c := by
    rcases hreach with heq | ⟨st, s, n, hs, hr, hc⟩
    · rw [congrFun (OPRFServer.new_eq cfg h1) 0] at heq
      have := (Option.some.injEq _ _).mp heq
      rw [← this]
      exact ⟨le_refl _, h1, rfl⟩
    · have hst := startup_cellInv cfg t0 st h1 h2 hs
      have hsinv := (runIters_spec cfg st h1 h2 hst n s hr).1
      rcases hc with hc | hc
      · rw [hc]; exact hsinv
      · rw [hc]; exact hsinv
  obtain ⟨hlo, hhi, hact⟩ := hinv
  refine ⟨hlo, hhi, ?_, ?_⟩
  · rw [hact, mem_rangeList]
    omega
  · intro e he1 he2 hmem
    rw [hact, mem_rangeList] at hmem
    omega

theorem C1_reachable_epoch_invariant_witness :
    (Config.mk 12 24 1 none).first_epoch
        ≤ (OPRFServer.mk (PpoprfServer.mk 0 (rangeList 12 13)) 12 none).epoch ∧
    (OPRFServer.mk (PpoprfServer.mk 0 (rangeList 12 13)) 12 none).epoch
        ≤ (Config.mk 12 24 1 none).last_epoch ∧
    (OPRFServer.mk (PpoprfServer.mk 0 (rangeList 12 13)) 12 none).epoch
        ∈ (OPRFServer.mk (PpoprfServer.mk 0 (rangeList 12 13)) 12
            none).server.activeEpochs ∧
    ∀ e, (Config.mk 12 24 1 none).first_epoch ≤ e →
      e < (OPRFServer.mk (PpoprfServer.mk 0 (rangeList 12 13)) 12 none).epoch →
      e ∉ (OPRFServer.mk (PpoprfServer.mk 0 (rangeList 12 13)) 12
            none).server.activeEpochs :=
  C1_reachable_epoch_invariant (Config.mk 12 24 1 none) 0
    (OPRFServer.mk (PpoprfServer.mk 0 (rangeList 12 13)) 12 none)
    (by decide) (by decide) (Or.inl (by decide))

/-- C2: on a rotation tick from any invariant cell state, with
`old = current_epoch`: when `old + 1` lies within
`[first_epoch, last_epoch]`, `old` is punctured, the epoch becomes
`old + 1` and the PPOPRF instance (its key) is retained; otherwise the
whole cell is replaced by a freshly-initialised PPOPRF instance with
the full range active and the epoch reset to `first_epoch`.  The
critical section is one atomic step (`tick`) of the model. -/
theorem C2_rotation_tick_advance_or_rotate (cfg : Config)
    (c : OPRFServer) (k : Nat)
    (h1 : cfg.first_epoch ≤ cfg.last_epoch) (h2 : cfg.last_epoch ≤ 255)
    (hinv : cellInv cfg c) :
    ∃ c', tick cfg c k = some c' ∧
      (if cfg.first_epoch ≤ c.epoch + 1 ∧ c.epoch + 1 ≤ cfg.last_epoch then
        c'.epoch = c.epoch + 1 ∧
        c'.server.keyId = c.server.keyId ∧
        c'.server.activeEpochs = c.server.activeEpochs.erase c.epoch ∧
        c.epoch ∉ c'.server.activeEpochs ∧
        c'.next_epoch_time = c.next_epoch_time
      else
        c'.epoch = cfg.first_epoch ∧
        c'.server = PpoprfServer.new cfg.epochsList k ∧
        c'.server.activeEpochs
          = rangeList cfg.first_epoch
              (cfg.last_epoch + 1 - cfg.first_epoch) ∧
        c'.next_epoch_time = none) := by
  obtain ⟨hlo, hhi, hact⟩ := hinv
  rw [tick_spec cfg c k h1 h2 ⟨hlo, hhi, hact⟩]
  refine ⟨_, rfl, ?_⟩
  by_cases hlt : c.epoch < cfg.last_epoch
  · rw [if_pos hlt, if_pos (⟨by omega, by omega⟩ :
      cfg.first_epoch ≤ c.epoch + 1 ∧ c.epoch + 1 ≤ cfg.last_epoch)]
    refine ⟨rfl, rfl, ?_, ?_, rfl⟩
    · show rangeList (c.epoch + 1) (cfg.last_epoch - c.epoch)
        = c.server.activeEpochs.erase c.epoch
      have hsucc : cfg.last_epoch + 1 - c.epoch
          = (cfg.last_epoch - c.epoch) + 1 := by omega
      rw [hact, hsucc, rangeList_succ_eq, List.erase_cons_head]
    · show c.epoch ∉ rangeList (c.epoch + 1) (cfg.last_epoch - c.epoch)
      rw [mem_rangeList]
      omega
  · rw [if_neg hlt, if_neg (by omega :
      ¬(cfg.first_epoch ≤ c.epoch + 1 ∧ c.epoch + 1 ≤ cfg.last_epoch))]
    exact ⟨rfl, rfl, rfl, rfl⟩

theorem C2_rotation_tick_advance_or_rotate_witness :
    ∃ c', tick (Config.mk 12 24 1 none)
        (OPRFServer.mk (PpoprfServer.mk 0 (rangeList 12 13)) 12 none) 7
        = some c' ∧
      (if (Config.mk 12 24 1 none).first_epoch
            ≤ (OPRFServer.mk (PpoprfServer.mk 0 (rangeList 12 13)) 12
                none).epoch + 1 ∧
          (OPRFServer.mk (PpoprfServer.mk 0 (rangeList 12 13)) 12
                none).epoch + 1
            ≤ (Config.mk 12 24 1 none).last_epoch then
        c'.epoch = (OPRFServer.mk (PpoprfServer.mk 0 (rangeList 12 13)) 12
            none).epoch + 1 ∧
        c'.server.keyId = (OPRFServer.mk (PpoprfServer.mk 0
            (rangeList 12 13)) 12 none).server.keyId ∧
        c'.server.activeEpochs
          = (OPRFServer.mk (PpoprfServer.mk 0 (rangeList 12 13)) 12
              none).server.activeEpochs.erase
              (OPRFServer.mk (PpoprfServer.mk 0 (rangeList 12 13)) 12
                none).epoch ∧
        (OPRFServer.mk (PpoprfServer.mk 0 (rangeList 12 13)) 12
            none).epoch ∉ c'.server.activeEpochs ∧
        c'.next_epoch_time
          = (OPRFServer.mk (PpoprfServer.mk 0 (rangeList 12 13)) 12
              none).next_epoch_time
      else
        c'.epoch = (Config.mk 12 24 1 none).first_epoch ∧
        c'.server = PpoprfServer.new (Config.mk 12 24 1 none).epochsList 7 ∧
        c'.server.activeEpochs
          = rangeList (Config.mk 12 24 1 none).first_epoch
              ((Config.mk 12 24 1 none).last_epoch + 1
                - (Config.mk 12 24 1 none).first_epoch) ∧
        c'.next_epoch_time = none) :=
  C2_rotation_tick_advance_or_rotate (Config.mk 12 24 1 none)
    (OPRFServer.mk (PpoprfServer.mk 0 (rangeList 12 13)) 12 none) 7
    (by decide) (by decide) (by decide)

/-- C3: for every configuration with `first_epoch ≤ last_epoch` and
`epoch_seconds > 0` and every start time at or after the base time, the
scheduler's startup computation yields the current epoch
`first_epoch + (floor((T0 − B) / epoch_seconds) mod
(last_epoch − first_epoch + 1))`, and a successful startup sets the
cell's epoch to precisely that value. -/
theorem C3_startup_epoch_formula (cfg : Config) (t0 : Nat)
    (h1 : cfg.first_epoch ≤ cfg.last_epoch) (h2 : cfg.last_epoch ≤ 255)
    (hE : 0 < cfg.epoch_seconds) (hT : cfg.baseTime t0 ≤ t0) :
    startEpoch cfg (elapsedEpochs cfg t0 (cfg.baseTime t0))
      = cfg.first_epoch +
        ((t0 - cfg.baseTime t0) / cfg.interval)
          % (cfg.last_epoch - cfg.first_epoch + 1) ∧
    ∀ st, startup cfg t0 = some st →
      st.cell.epoch = cfg.first_epoch +
        ((t0 - cfg.baseTime t0) / cfg.interval)
          % (cfg.last_epoch - cfg.first_epoch + 1) := by
  have hlen : cfg.epochsLen = cfg.last_epoch - cfg.first_epoch + 1 := by
    unfold Config.epochsLen
    omega
  have hformula : startEpoch cfg (elapsedEpochs cfg t0 (cfg.baseTime t0))
      = cfg.first_epoch +
        ((t0 - cfg.baseTime t0) / cfg.interval)
          % (cfg.last_epoch - cfg.first_epoch + 1) := by
    obtain ⟨-, -, hce, -, -, -⟩ := startEpoch_spec cfg
      (elapsedEpochs cfg t0 (cfg.baseTime t0)) h1 h2
    rw [hce]
    unfold startOffset
    rw [hlen]
    rfl
  refine ⟨hformula, ?_⟩
  intro st hs
  obtain ⟨s0, heq0, hb, ha, hcatch, -, -⟩ := startup_elim cfg t0 st hs
  obtain ⟨-, -, hce, hcl, hcu, -⟩ := startEpoch_spec cfg
    (elapsedEpochs cfg t0 (cfg.baseTime t0)) h1 h2
  have hnew := congrFun (OPRFServer.new_eq cfg h1) 0
  rw [hnew] at heq0
  have hs0 := (Option.some.injEq _ _).mp heq0
  rw [catchUp_spec cfg s0 _ h1 hcl hcu (by rw [← hs0]; rfl)] at hcatch
  unfold startOffset at hce
  rw [hlen] at hce
  by_cases hcur : startEpoch cfg (elapsedEpochs cfg t0 (cfg.baseTime t0))
      = cfg.first_epoch
  · rw [if_pos hcur] at hcatch
    have hcell := (Option.some.injEq _ _).mp hcatch
    rw [← hcell, ← hs0]
    show cfg.first_epoch = _
    rw [hcur] at hce
    unfold elapsedEpochs at hce
    omega
  · rw [if_neg hcur] at hcatch
    have hcell := (Option.some.injEq _ _).mp hcatch
    rw [← hcell]
    show startEpoch cfg (elapsedEpochs cfg t0 (cfg.baseTime t0)) = _
    rw [hce]
    rfl

theorem C3_startup_epoch_formula_witness :
    (startEpoch (Config.mk 12 24 1 (some 0))
        (elapsedEpochs (Config.mk 12 24 1 (some 0)) 5000
          ((Config.mk 12 24 1 (some 0)).baseTime 5000))
      = (Config.mk 12 24 1 (some 0)).first_epoch +
        ((5000 - (Config.mk 12 24 1 (some 0)).baseTime 5000)
            / (Config.mk 12 24 1 (some 0)).interval)
          % ((Config.mk 12 24 1 (some 0)).last_epoch
              - (Config.mk 12 24 1 (some 0)).first_epoch + 1) ∧
     ∀ st, startup (Config.mk 12 24 1 (some 0)) 5000 = some st →
      st.cell.epoch = (Config.mk 12 24 1 (some 0)).first_epoch +
        ((5000 - (Config.mk 12 24 1 (some 0)).baseTime 5000)
            / (Config.mk 12 24 1 (some 0)).interval)
          % ((Config.mk 12 24 1 (some 0)).last_epoch
              - (Config.mk 12 24 1 (some 0)).first_epoch + 1)) ∧
    startEpoch (Config.mk 12 24 1 (some 0))
        (elapsedEpochs (Config.mk 12 24 1 (some 0)) 5000
          ((Config.mk 12 24 1 (some 0)).baseTime 5000)) = 17 :=
  ⟨C3_startup_epoch_formula (Config.mk 12 24 1 (some 0)) 5000
      (by decide) (by decide) (by decide) (by decide),
    by decide⟩

/-- C4: startup catch-up from the freshly constructed cell (full range
active): when the computed current epoch differs from `first_epoch`,
exactly the tags `first_epoch, …, current − 1` are punctured (the model
iterates `rangeList first_epoch (current − first_epoch)`, which is
ascending) and the epoch becomes `current`, in one atomic critical
section; when it equals `first_epoch`, the cell is returned
unchanged. -/
theorem C4_startup_catchup_exact (cfg : Config) (s : OPRFServer)
    (current : Nat)
    (h1 : cfg.first_epoch ≤ cfg.last_epoch)
    (hc1 : cfg.first_epoch ≤ current) (hc2 : current ≤ cfg.last_epoch)
    (hact : s.server.activeEpochs = cfg.epochsList) :
    (current = cfg.first_epoch → catchUp cfg s current = some s) ∧
    (current ≠ cfg.first_epoch →
      ∃ s', catchUp cfg s current = some s' ∧
        s'.epoch = current ∧
        s'.server.keyId = s.server.keyId ∧
        s'.next_epoch_time = s.next_epoch_time ∧
        s'.server.activeEpochs
          = rangeList current (cfg.last_epoch + 1 - current) ∧
        (∀ e, e ∈ s'.server.activeEpochs ↔
          current ≤ e ∧ e ≤ cfg.last_epoch)) := by
  have hspec := catchUp_spec cfg s current h1 hc1 hc2 hact
  constructor
  · intro hcur
    rw [hspec, if_pos hcur]
  · intro hcur
    rw [hspec, if_neg hcur]
    refine ⟨_, rfl, rfl, rfl, rfl, rfl, ?_⟩
    intro e
    show e ∈ rangeList current (cfg.last_epoch + 1 - current) ↔ _
    rw [mem_rangeList]
    omega

theorem C4_startup_catchup_exact_witness :
    (17 = (Config.mk 12 24 1 none).first_epoch →
      catchUp (Config.mk 12 24 1 none)
        (OPRFServer.mk (PpoprfServer.mk 0 (rangeList 12 13)) 12 none) 17
        = some (OPRFServer.mk (PpoprfServer.mk 0 (rangeList 12 13)) 12
            none)) ∧
    (17 ≠ (Config.mk 12 24 1 none).first_epoch →
      ∃ s', catchUp (Config.mk 12 24 1 none)
          (OPRFServer.mk (PpoprfServer.mk 0 (rangeList 12 13)) 12 none) 17
          = some s' ∧
        s'.epoch = 17 ∧
        s'.server.keyId = (OPRFServer.mk (PpoprfServer.mk 0
            (rangeList 12 13)) 12 none).server.keyId ∧
        s'.next_epoch_time = (OPRFServer.mk (PpoprfServer.mk 0
            (rangeList 12 13)) 12 none).next_epoch_time ∧
        s'.server.activeEpochs
          = rangeList 17 ((Config.mk 12 24 1 none).last_epoch + 1 - 17) ∧
        (∀ e, e ∈ s'.server.activeEpochs ↔
          17 ≤ e ∧ e ≤ (Config.mk 12 24 1 none).last_epoch)) :=
  C4_startup_catchup_exact (Config.mk 12 24 1 none)
    (OPRFServer.mk (PpoprfServer.mk 0 (rangeList 12 13)) 12 none) 17
    (by decide) (by decide) (by decide) (by decide)

/-- One loop iteration publishes `Some` of the truncated boundary and
then ends with `next_epoch_time = None` exactly when the tick performs
a full key rotation (i.e. the epoch was `last_epoch`), keeping the
published value otherwise. -/
theorem loopIter_next_epoch_time (cfg : Config) (s : SchedState)
    (h1 : cfg.first_epoch ≤ cfg.last_epoch) (h2 : cfg.last_epoch ≤ 255)
    (hinv : cellInv cfg s.cell) :
    ∃ s', loopIter cfg s = some s' ∧
      s'.cell.next_epoch_time
        = (if s.cell.epoch = cfg.last_epoch then none
           else some (truncToSec s.next_rotation)) := by
  have hpub : cellInv cfg (publishStep s).cell := hinv
  have htick := tick_spec cfg (publishStep s).cell (publishStep s).nextKeyId
    h1 h2 hpub
  unfold loopIter tickStep
  rw [htick]
  refine ⟨_, rfl, ?_⟩
  dsimp only
  obtain ⟨hlo, hhi, -⟩ := hinv
  have hpe : (publishStep s).cell.epoch = s.cell.epoch := rfl
  by_cases hlt : (publishStep s).cell.epoch < cfg.last_epoch
  · rw [if_pos hlt, if_neg (by omega : ¬s.cell.epoch = cfg.last_epoch)]
    rfl
  · rw [if_neg hlt, if_pos (by omega : s.cell.epoch = cfg.last_epoch)]

/-- C5 counterexample: with a single-epoch configuration
`first = last = 12, epoch_seconds = 1, base_time = None` started at
`t0 = 0`, the scheduler's first iteration publishes
`next_epoch_time = Some` and its rotation tick then leaves a reachable
cell state with `next_epoch_time = None` — after the first publication,
contradicting the claim. -/
theorem C5_none_after_rotation_counterexample :
    startup (Config.mk 12 12 1 none) 0
      = some (SchedState.mk
          (OPRFServer.mk (PpoprfServer.mk 0 (rangeList 12 1)) 12 none)
          1000 1) ∧
    (publishStep (SchedState.mk
          (OPRFServer.mk (PpoprfServer.mk 0 (rangeList 12 1)) 12 none)
          1000 1)).cell.next_epoch_time = some 1000 ∧
    runIters (Config.mk 12 12 1 none)
        (SchedState.mk
          (OPRFServer.mk (PpoprfServer.mk 0 (rangeList 12 1)) 12 none)
          1000 1) 1
      = some (SchedState.mk
          (OPRFServer.mk (PpoprfServer.mk 1 (rangeList 12 1)) 12 none)
          2000 2) ∧
    reachableCell (Config.mk 12 12 1 none) 0
      (OPRFServer.mk (PpoprfServer.mk 1 (rangeList 12 1)) 12 none) ∧
    (OPRFServer.mk (PpoprfServer.mk 1 (rangeList 12 1)) 12
        none).next_epoch_time = none := by
  refine ⟨by decide, by decide, by decide, ?_, rfl⟩
  exact Or.inr ⟨SchedState.mk
      (OPRFServer.mk (PpoprfServer.mk 0 (rangeList 12 1)) 12 none) 1000 1,
    SchedState.mk
      (OPRFServer.mk (PpoprfServer.mk 1 (rangeList 12 1)) 12 none) 2000 2,
    1, by decide, by decide, Or.inl rfl⟩

/-- C5 amended: `next_epoch_time` is `None` between process start and
the scheduler's first publication, and again immediately after each
full key rotation until the next publication.  Every publication writes
`Some` of the truncated boundary, and a rotation-loop iteration ends in
`None` exactly when it performed a full key rotation (its epoch was
`last_epoch`), keeping the published `Some` value otherwise. -/
theorem C5_next_epoch_time_amended (cfg : Config) (t0 : Nat)
    (st0 s : SchedState) (n : Nat)
    (h1 : cfg.first_epoch ≤ cfg.last_epoch) (h2 : cfg.last_epoch ≤ 255)
    (hs : startup cfg t0 = some st0)
    (hr : runIters cfg st0 n = some s) :
    (publishStep s).cell.next_epoch_time
      = some (truncToSec s.next_rotation) ∧
    ∃ s', loopIter cfg s = some s' ∧
      s'.cell.next_epoch_time
        = (if s.cell.epoch = cfg.last_epoch then none
           else some (truncToSec s.next_rotation)) := by
  have hinv := (runIters_spec cfg st0 h1 h2
    (startup_cellInv cfg t0 st0 h1 h2 hs) n s hr).1
  exact ⟨rfl, loopIter_next_epoch_time cfg s h1 h2 hinv⟩

theorem C5_next_epoch_time_amended_witness :
    (publishStep (SchedState.mk
        (OPRFServer.mk (PpoprfServer.mk 0 (rangeList 12 13)) 12 none)
        1000 1)).cell.next_epoch_time
      = some (truncToSec (SchedState.mk
          (OPRFServer.mk (PpoprfServer.mk 0 (rangeList 12 13)) 12 none)
          1000 1).next_rotation) ∧
    ∃ s', loopIter (Config.mk 12 24 1 none)
        (SchedState.mk
          (OPRFServer.mk (PpoprfServer.mk 0 (rangeList 12 13)) 12 none)
          1000 1) = some s' ∧
      s'.cell.next_epoch_time
        = (if (SchedState.mk
              (OPRFServer.mk (PpoprfServer.mk 0 (rangeList 12 13)) 12 none)
              1000 1).cell.epoch = (Config.mk 12 24 1 none).last_epoch
           then none
           else some (truncToSec (SchedState.mk
              (OPRFServer.mk (PpoprfServer.mk 0 (rangeList 12 13)) 12 none)
              1000 1).next_rotation)) :=
  C5_next_epoch_time_amended (Config.mk 12 24 1 none) 0
    (SchedState.mk
      (OPRFServer.mk (PpoprfServer.mk 0 (rangeList 12 13)) 12 none) 1000 1)
    (SchedState.mk
      (OPRFServer.mk (PpoprfServer.mk 0 (rangeList 12 13)) 12 none) 1000 1)
    0 (by decide) (by decide) (by decide) rfl

/-- Monotone truncation to whole seconds. -/
theorem truncToSec_mono {a b : Nat} (h : a ≤ b) :
    truncToSec a ≤ truncToSec b :=
  Nat.mul_le_mul_right _ (Nat.div_le_div_right h)

/-- C6: within a run of the scheduler the successively published
`next_epoch_time` values are monotonically non-decreasing — the
iteration-`m` publication is at most the iteration-`n` one for
`m ≤ n` — and an iteration can only reset the field to `None` by a
full key rotation. -/
theorem C6_published_times_monotone (cfg : Config) (t0 : Nat)
    (st0 sm sn : SchedState) (m n : Nat)
    (h1 : cfg.first_epoch ≤ cfg.last_epoch) (h2 : cfg.last_epoch ≤ 255)
    (hmn : m ≤ n)
    (hs : startup cfg t0 = some st0)
    (hm : runIters cfg st0 m = some sm)
    (hn : runIters cfg st0 n = some sn) :
    (publishStep sm).cell.next_epoch_time
      = some (truncToSec sm.next_rotation) ∧
    (publishStep sn).cell.next_epoch_time
      = some (truncToSec sn.next_rotation) ∧
    truncToSec sm.next_rotation ≤ truncToSec sn.next_rotation ∧
    (∀ s', loopIter cfg sn = some s' →
      s'.cell.next_epoch_time = none →
      sn.cell.epoch = cfg.last_epoch) := by
  have hinv0 := startup_cellInv cfg t0 st0 h1 h2 hs
  obtain ⟨hinvm, hnrm⟩ := runIters_spec cfg st0 h1 h2 hinv0 m sm hm
  obtain ⟨hinvn, hnrn⟩ := runIters_spec cfg st0 h1 h2 hinv0 n sn hn
  refine ⟨rfl, rfl, ?_, ?_⟩
  · apply truncToSec_mono
    rw [hnrm, hnrn]
    have := Nat.mul_le_mul_right cfg.interval hmn
    omega
  · intro s' hstep hnone
    obtain ⟨s2, hstep2, hchar⟩ := loopIter_next_epoch_time cfg sn h1 h2 hinvn
    rw [hstep2] at hstep
    have hss := (Option.some.injEq _ _).mp hstep
    rw [hss] at hchar
    rw [hchar] at hnone
    by_cases hc : sn.cell.epoch = cfg.last_epoch
    · exact hc
    · rw [if_neg hc] at hnone
      exact absurd hnone (by simp)

theorem C6_published_times_monotone_witness :
    (publishStep (SchedState.mk
        (OPRFServer.mk (PpoprfServer.mk 0 (rangeList 12 13)) 12 none)
        1000 1)).cell.next_epoch_time
      = some (truncToSec (SchedState.mk
          (OPRFServer.mk (PpoprfServer.mk 0 (rangeList 12 13)) 12 none)
          1000 1).next_rotation) ∧
    (publishStep (SchedState.mk
        (OPRFServer.mk (PpoprfServer.mk 0 (rangeList 13 12))
          13 (some 1000)) 2000 2)).cell.next_epoch_time
      = some (truncToSec (SchedState.mk
          (OPRFServer.mk (PpoprfServer.mk 0 (rangeList 13 12))
            13 (some 1000)) 2000 2).next_rotation) ∧
    truncToSec (SchedState.mk
        (OPRFServer.mk (PpoprfServer.mk 0 (rangeList 12 13)) 12 none)
        1000 1).next_rotation
      ≤ truncToSec (SchedState.mk
          (OPRFServer.mk (PpoprfServer.mk 0 (rangeList 13 12))
            13 (some 1000)) 2000 2).next_rotation ∧
    (∀ s', loopIter (Config.mk 12 24 1 none)
        (SchedState.mk
          (OPRFServer.mk (PpoprfServer.mk 0 (rangeList 13 12))
            13 (some 1000)) 2000 2) = some s' →
      s'.cell.next_epoch_time = none →
      (SchedState.mk
          (OPRFServer.mk (PpoprfServer.mk 0 (rangeList 13 12))
            13 (some 1000)) 2000 2).cell.epoch
        = (Config.mk 12 24 1 none).last_epoch) :=
  C6_published_times_monotone (Config.mk 12 24 1 none) 0
    (SchedState.mk
      (OPRFServer.mk (PpoprfServer.mk 0 (rangeList 12 13)) 12 none) 1000 1)
    (SchedState.mk
      (OPRFServer.mk (PpoprfServer.mk 0 (rangeList 12 13)) 12 none) 1000 1)
    (SchedState.mk
      (OPRFServer.mk (PpoprfServer.mk 0 (rangeList 13 12)) 13 (some 1000))
      2000 2)
    0 1 (by decide) (by decide) (by decide) (by decide) rfl (by decide)

/-- C7 counterexample: `elapsed = 4294967295 = u32::MAX` fits in a
32-bit unsigned integer, yet the scheduler's assertion
`elapsed < u32::MAX` fails, so "whenever elapsed fits in u32 the
assertion passes" is false at this input. -/
theorem C7_assert_boundary_counterexample :
    4294967295 < 2 ^ 32 ∧ elapsedAssertOk 4294967295 = false :=
  ⟨by norm_num, by decide⟩

/-- C7 amended: the overflow assertion passes iff `elapsed + 1` fits in
a 32-bit unsigned integer (equivalently `elapsed < u32::MAX`); when it
passes, the truncating cast is lossless and
`next_rotation = base + interval·(elapsed + 1)` exactly; when the
elapsed count computed at startup fails the assertion, startup
aborts. -/
theorem C7_assert_and_next_rotation_amended (cfg : Config)
    (t0 base elapsed : Nat) :
    (elapsedAssertOk elapsed = true ↔ elapsed + 1 < 2 ^ 32) ∧
    (elapsedAssertOk elapsed = true →
      nextRotationInit cfg base elapsed
        = base + cfg.interval * (elapsed + 1)) ∧
    (elapsedAssertOk (elapsedEpochs cfg t0 (cfg.baseTime t0)) = false →
      startup cfg t0 = none) := by
  have h32 : (2 : Nat) ^ 32 = 4294967296 := by norm_num
  refine ⟨?_, ?_, ?_⟩
  · simp only [elapsedAssertOk, u32Max, decide_eq_true_eq, h32]
    omega
  · intro h
    simp only [elapsedAssertOk, u32Max, decide_eq_true_eq] at h
    unfold nextRotationInit
    have hmod : (elapsed + 1) % 2 ^ 32 = elapsed + 1 :=
      Nat.mod_eq_of_lt (by omega)
    rw [hmod]
  · intro h
    unfold startup
    split
    · rfl
    next s0 heq =>
      split
      · rfl
      next hb =>
        split
        · rfl
        next s1 heq1 =>
          simp [h]

theorem C7_assert_and_next_rotation_amended_witness :
    nextRotationInit (Config.mk 12 24 1 (some 0)) 0 5
        = 0 + (Config.mk 12 24 1 (some 0)).interval * (5 + 1) ∧
    startup (Config.mk 12 24 1 (some 0)) 4294967295000 = none :=
  ⟨(C7_assert_and_next_rotation_amended (Config.mk 12 24 1 (some 0))
      0 0 5).2.1 (by decide),
   (C7_assert_and_next_rotation_amended (Config.mk 12 24 1 (some 0))
      4294967295000 0 5).2.2 (by decide)⟩

/-- C8: for every configuration with
`first_epoch ≤ last_epoch ≤ 255` and every elapsed epoch count, the
startup offset satisfies `offset ≤ last_epoch − first_epoch`, the
`as u8` truncation of the offset is the identity, the 8-bit addition
`first_epoch + offset` stays below 256 (no overflow), and the computed
starting epoch never exceeds `last_epoch`. -/
theorem C8_offset_fits_u8 (cfg : Config) (elapsed : Nat)
    (h1 : cfg.first_epoch ≤ cfg.last_epoch) (h2 : cfg.last_epoch ≤ 255) :
    startOffset cfg elapsed ≤ cfg.last_epoch - cfg.first_epoch ∧
    startOffset cfg elapsed % 256 = startOffset cfg elapsed ∧
    cfg.first_epoch + startOffset cfg elapsed < 256 ∧
    startEpoch cfg elapsed = cfg.first_epoch + startOffset cfg elapsed ∧
    startEpoch cfg elapsed ≤ cfg.last_epoch := by
  obtain ⟨ha, hb, hc, -, he, hf⟩ := startEpoch_spec cfg elapsed h1 h2
  exact ⟨ha, hb, hf, hc, he⟩

theorem C8_offset_fits_u8_witness :
    startOffset (Config.mk 12 24 1 none) 2000
        ≤ (Config.mk 12 24 1 none).last_epoch
          - (Config.mk 12 24 1 none).first_epoch ∧
    startOffset (Config.mk 12 24 1 none) 2000 % 256
        = startOffset (Config.mk 12 24 1 none) 2000 ∧
    (Config.mk 12 24 1 none).first_epoch
        + startOffset (Config.mk 12 24 1 none) 2000 < 256 ∧
    startEpoch (Config.mk 12 24 1 none) 2000
        = (Config.mk 12 24 1 none).first_epoch
          + startOffset (Config.mk 12 24 1 none) 2000 ∧
    startEpoch (Config.mk 12 24 1 none) 2000
        ≤ (Config.mk 12 24 1 none).last_epoch :=
  C8_offset_fits_u8 (Config.mk 12 24 1 none) 2000 (by decide) (by decide)

/-- C9: when the current epoch is 255 — in range only when
`last_epoch = 255` — the checked 8-bit increment yields no successor,
and the tick handles this exactly like an out-of-range successor:
no overflow or panic, a full key rotation, and
`current_epoch = first_epoch`. -/
theorem C9_increment_at_255_rotates (cfg : Config) (c : OPRFServer)
    (k : Nat)
    (h1 : cfg.first_epoch ≤ cfg.last_epoch) (h2 : cfg.last_epoch ≤ 255)
    (hep : c.epoch = 255) (hmem : c.epoch ∈ c.server.activeEpochs) :
    checkedAddOne c.epoch = none ∧
    (c.epoch ≤ cfg.last_epoch → cfg.last_epoch = 255) ∧
    tick cfg c k = OPRFServer.new cfg k ∧
    ∃ c', tick cfg c k = some c' ∧ c'.epoch = cfg.first_epoch ∧
      c'.server = PpoprfServer.new cfg.epochsList k ∧
      c'.next_epoch_time = none := by
  have hadd : checkedAddOne c.epoch = none := by
    unfold checkedAddOne
    rw [hep, if_neg (by omega)]
  have hpunct : c.server.puncture c.epoch
      = some { c.server with
               activeEpochs := c.server.activeEpochs.erase c.epoch } := by
    unfold PpoprfServer.puncture
    rw [if_pos hmem]
  have htick : tick cfg c k = OPRFServer.new cfg k := by
    unfold tick
    rw [hpunct, hadd]
  have hnew := congrFun (OPRFServer.new_eq cfg h1) k
  refine ⟨hadd, by omega, htick, ?_⟩
  rw [htick, hnew]
  exact ⟨_, rfl, rfl, rfl, rfl⟩

theorem C9_increment_at_255_rotates_witness :
    checkedAddOne (OPRFServer.mk (PpoprfServer.mk 0 (rangeList 255 1))
        255 none).epoch = none ∧
    ((OPRFServer.mk (PpoprfServer.mk 0 (rangeList 255 1)) 255 none).epoch
        ≤ (Config.mk 200 255 1 none).last_epoch →
      (Config.mk 200 255 1 none).last_epoch = 255) ∧
    tick (Config.mk 200 255 1 none)
        (OPRFServer.mk (PpoprfServer.mk 0 (rangeList 255 1)) 255 none) 3
      = OPRFServer.new (Config.mk 200 255 1 none) 3 ∧
    ∃ c', tick (Config.mk 200 255 1 none)
        (OPRFServer.mk (PpoprfServer.mk 0 (rangeList 255 1)) 255 none) 3
        = some c' ∧
      c'.epoch = (Config.mk 200 255 1 none).first_epoch ∧
      c'.server = PpoprfServer.new (Config.mk 200 255 1 none).epochsList 3 ∧
      c'.next_epoch_time = none :=
  C9_increment_at_255_rotates (Config.mk 200 255 1 none)
    (OPRFServer.mk (PpoprfServer.mk 0 (rangeList 255 1)) 255 none) 3
    (by decide) (by decide) (by decide) (by decide)

/-- C10: `next_rotation` always sits on the base-time grid: after `n`
loop iterations it equals
`base + interval·(elapsed + 1 + n)` — a positive multiple of the
interval past the base time — it gains exactly one interval per
iteration, it is never reset by a full key rotation, and (with a
positive interval) it is strictly increasing across iterations and
hence across key generations. -/
theorem C10_next_rotation_grid (cfg : Config) (t0 : Nat)
    (st0 s : SchedState) (n : Nat)
    (h1 : cfg.first_epoch ≤ cfg.last_epoch) (h2 : cfg.last_epoch ≤ 255)
    (hE : 0 < cfg.epoch_seconds)
    (hs : startup cfg t0 = some st0)
    (hr : runIters cfg st0 n = some s) :
    s.next_rotation = cfg.baseTime t0
      + cfg.interval * (elapsedEpochs cfg t0 (cfg.baseTime t0) + 1 + n) ∧
    (∃ k, 0 < k ∧
      s.next_rotation = cfg.baseTime t0 + k * cfg.interval) ∧
    (∀ s', loopIter cfg s = some s' →
      s'.next_rotation = s.next_rotation + cfg.interval ∧
      s.next_rotation < s'.next_rotation) := by
  obtain ⟨s0, -, -, ha, -, hnr0, -⟩ := startup_elim cfg t0 st0 hs
  simp only [elapsedAssertOk, u32Max, decide_eq_true_eq] at ha
  have h32 : (2 : Nat) ^ 32 = 4294967296 := by norm_num
  have hmod : (elapsedEpochs cfg t0 (cfg.baseTime t0) + 1) % 2 ^ 32
      = elapsedEpochs cfg t0 (cfg.baseTime t0) + 1 :=
    Nat.mod_eq_of_lt (by omega)
  have hinit : st0.next_rotation = cfg.baseTime t0
      + cfg.interval * (elapsedEpochs cfg t0 (cfg.baseTime t0) + 1) := by
    rw [hnr0]
    unfold nextRotationInit
    rw [hmod]
  have hIpos : 0 < cfg.interval := by
    unfold Config.interval msPerSec
    omega
  have hinv0 := startup_cellInv cfg t0 st0 h1 h2 hs
  obtain ⟨hinv, hnr⟩ := runIters_spec cfg st0 h1 h2 hinv0 n s hr
  have hform : s.next_rotation = cfg.baseTime t0
      + cfg.interval * (elapsedEpochs cfg t0 (cfg.baseTime t0) + 1 + n) := by
    rw [hnr, hinit]
    ring
  refine ⟨hform, ?_, ?_⟩
  · refine ⟨elapsedEpochs cfg t0 (cfg.baseTime t0) + 1 + n, by omega, ?_⟩
    rw [hform]
    ring
  · intro s' hstep
    obtain ⟨s2, hstep2, -, hnr2, -⟩ := loopIter_spec cfg s h1 h2 hinv
    rw [hstep2] at hstep
    have hss := (Option.some.injEq _ _).mp hstep
    rw [← hss]
    exact ⟨hnr2, by omega⟩

theorem C10_next_rotation_grid_witness :
    (SchedState.mk
        (OPRFServer.mk (PpoprfServer.mk 0 (rangeList 12 13)) 12 none)
        1000 1).next_rotation
      = (Config.mk 12 24 1 none).baseTime 0
        + (Config.mk 12 24 1 none).interval
          * (elapsedEpochs (Config.mk 12 24 1 none) 0
              ((Config.mk 12 24 1 none).baseTime 0) + 1 + 0) ∧
    (∃ k, 0 < k ∧
      (SchedState.mk
          (OPRFServer.mk (PpoprfServer.mk 0 (rangeList 12 13)) 12 none)
          1000 1).next_rotation
        = (Config.mk 12 24 1 none).baseTime 0
          + k * (Config.mk 12 24 1 none).interval) ∧
    (∀ s', loopIter (Config.mk 12 24 1 none)
        (SchedState.mk
          (OPRFServer.mk (PpoprfServer.mk 0 (rangeList 12 13)) 12 none)
          1000 1) = some s' →
      s'.next_rotation
          = (SchedState.mk
              (OPRFServer.mk (PpoprfServer.mk 0 (rangeList 12 13)) 12 none)
              1000 1).next_rotation + (Config.mk 12 24 1 none).interval ∧
      (SchedState.mk
          (OPRFServer.mk (PpoprfServer.mk 0 (rangeList 12 13)) 12 none)
          1000 1).next_rotation < s'.next_rotation) :=
  C10_next_rotation_grid (Config.mk 12 24 1 none) 0
    (SchedState.mk
      (OPRFServer.mk (PpoprfServer.mk 0 (rangeList 12 13)) 12 none) 1000 1)
    (SchedState.mk
      (OPRFServer.mk (PpoprfServer.mk 0 (rangeList 12 13)) 12 none) 1000 1)
    0 (by decide) (by decide) (by decide) (by decide) rfl

end StarRandsrv
